import Mathlib

/-
Verification development for the claude-usage-widget repository.

The non-trivial component of the repository is a trio of shell scripts
(claude-usage.sh, claude-usage-compact.sh, claude-usage-json.sh) that drive
the interactive claude CLI inside an ephemeral tmux session, capture the
rendered pane text and scrape usage percentages and reset descriptions out
of it, plus a small React UsageBar component.

Shallow embedding conventions:
  - A captured pane snapshot is a list of lines; a line is a list of
    characters (shell pipelines operate line-wise after the shell splits
    the captured variable on newlines).
  - grep/sed/tr/head stages of each pipeline are embedded as executable
    functions on those lists, faithful to the flags used in the scripts.
  - grep -A N is embedded without the cosmetic group separator lines
    (the literal two-dash lines GNU grep inserts between non-adjacent
    context groups): no downstream stage of any script can match such a
    separator line (the separator contains neither a digit nor the word
    Resets), so omitting it does not change any pipeline result.
  - The straight-line control flow of each script (bash without set -e:
    every command runs regardless of earlier failures) is embedded as a
    trace of effects computed from an environment recording the outcomes
    of the external tmux/date calls.
  - The React UsageBar component receives a JS number; it is embedded
    over exact rationals (the component performs only min/max/round, no
    arithmetic that would make float rounding observable).
-/

namespace Usage

/-- A single line of captured terminal text. -/
abbrev Ln := List Char

/-- A captured pane snapshot: the list of its lines. -/
abbrev Screen := List Ln

/-- Substring containment test, the semantics of plain grep with a literal
pattern: does the pattern occur contiguously inside the line? -/
def containsSub (p : Ln) : Ln → Bool
  | [] => p.isEmpty
  | c :: rest => p.isPrefixOf (c :: rest) || containsSub p rest

/-- Auxiliary for grep -A N: k is the number of trailing-context lines
still owed after the most recent match. -/
def grepAaux (p : Ln) (n : Nat) : Nat → Screen → Screen
  | _, [] => []
  | k, l :: ls =>
    if containsSub p l then l :: grepAaux p n n ls
    else
      match k with
      | 0 => grepAaux p n 0 ls
      | k' + 1 => l :: grepAaux p n k' ls

/-- grep -A n PAT: every matching line together with up to n lines of
trailing context (group separator lines omitted, see header comment). -/
def grepA (n : Nat) (p : Ln) (s : Screen) : Screen := grepAaux p n 0 s

/-- Scanner for the first match of the extended regex [0-9]+% in one line
(the semantics of grep -oE picking the leftmost match): acc holds the
digit run read so far, in reverse. -/
def firstPctTokAux : Ln → Ln → Option Ln
  | [], _ => none
  | c :: rest, acc =>
    if c = '%' then
      if acc.isEmpty then firstPctTokAux rest []
      else some (acc.reverse ++ ['%'])
    else if c.isDigit then firstPctTokAux rest (c :: acc)
    else firstPctTokAux rest []

/-- First [0-9]+% token of a line, if any. -/
def firstPctTok (l : Ln) : Option Ln := firstPctTokAux l []

/-- grep -oE followed by head -1 over a list of lines: the first token of
the first line holding one. -/
def firstPctInLines : Screen → Option Ln
  | [] => none
  | l :: ls =>
    match firstPctTok l with
    | some t => some t
    | none => firstPctInLines ls

/-- tr -d applied with the percent sign: delete every percent character. -/
def stripPct (l : Ln) : Ln := l.filter (fun c => !(c = '%'))

/-- Numeric value of a digit string. -/
def digitsToNat (l : Ln) : Nat := l.foldl (fun a c => 10 * a + (c.toNat - 48)) 0

/-- The text after the last occurrence of p inside l, if p occurs at all. -/
def afterLast (p : Ln) : Ln → Option Ln
  | [] => if p.isEmpty then some [] else none
  | c :: rest =>
    match afterLast p rest with
    | some r => some r
    | none =>
      if p.isPrefixOf (c :: rest) then some (List.drop p.length (c :: rest))
      else none

/-- Heading line of the session window. -/
def sessionHeading : Ln := "Current session".data

/-- Heading line of the all-models weekly window. -/
def weekAllHeading : Ln := "Current week (all models)".data

/-- Heading line of the Sonnet-only weekly window. -/
def weekSonnetHeading : Ln := "Current week (Sonnet only)".data

/-- The reset indicator keyword the scripts grep for. -/
def resetsKeyword : Ln := "Resets".data

/-- The keyword together with the following space, as used in the sed
substitution of the JSON script. -/
def resetsSp : Ln := "Resets ".data

/-- sed applied with the substitution deleting everything through the last
occurrence of the keyword-plus-space; a line without such an occurrence is
left unchanged (the sed pattern does not match it). -/
def sedStripResets (l : Ln) : Ln := (afterLast resetsSp l).getD l

/-- Percentage token (with its percent sign) of one window:
grep -A2 HEADING | grep -oE, head -1 (compact script variables). -/
def winPctTok (h : Ln) (s : Screen) : Option Ln := firstPctInLines (grepA 2 h s)

/-- Digit-string percentage of one window: the token with the percent sign
deleted by tr (JSON script variables). -/
def winPctDigits (h : Ln) (s : Screen) : Option Ln := (winPctTok h s).map stripPct

/-- Numeric reading of the digit-string percentage. -/
def winPctVal (h : Ln) (s : Screen) : Option Nat := (winPctDigits h s).map digitsToNat

/-- The first Resets-containing line of the window lookahead:
grep -A3 HEADING | grep Resets | head -1. -/
def firstResetsLine (h : Ln) (s : Screen) : Option Ln :=
  ((grepA 3 h s).filter (containsSub resetsKeyword)).head?

/-- Reset description of one window:
grep -A3 HEADING | grep Resets | sed | head -1 (JSON script variables). -/
def winReset (h : Ln) (s : Screen) : Option Ln :=
  (((grepA 3 h s).filter (containsSub resetsKeyword)).map sedStripResets).head?

/-- Reading of the reset extraction claimed by the specification sentence:
the text after the last occurrence of the keyword-plus-space on the first
matching line. -/
def specReset (h : Ln) (s : Screen) : Option Ln :=
  (firstResetsLine h s).bind (afterLast resetsSp)

/-- Specification reading of the percentage rule: at the first occurrence
of the heading, the first percentage token found on the heading line or
the two lines after it. -/
def specWindowPct (h : Ln) : Screen → Option Ln
  | [] => none
  | l :: ls =>
    if containsSub h l then firstPctInLines ((l :: ls).take 3)
    else specWindowPct h ls

/-- Bash default substitution with the question-mark placeholder
(an empty or unset variable becomes the placeholder). -/
def dfltQ (o : Option Ln) : Ln := o.getD ['?']

/-- Bash default substitution with the zero default of the JSON script. -/
def dflt0 (o : Option Ln) : Ln := o.getD ['0']

/-- Bash default substitution with the unknown default of the JSON script:
the colon-dash form substitutes the default when the variable is unset or
empty, so an empty extraction (a matching line that ends right after the
keyword-plus-space) also becomes the default. -/
def dfltUnknown (o : Option Ln) : Ln :=
  match o with
  | none => "unknown".data
  | some r => if r.isEmpty then "unknown".data else r

/-- The single line echoed by the compact script. -/
def compactLine (s : Screen) : Ln :=
  "Claude: ".data ++
    (dfltQ (winPctTok sessionHeading s) ++
      (" | Week: ".data ++ dfltQ (winPctTok weekAllHeading s)))

/-- Heredoc segment before the timestamp. -/
def segTs : Ln := "\x7b\n  \"timestamp\": \"".data

/-- Heredoc segment between the timestamp and the session percentage. -/
def segSess : Ln := "\",\n  \"session\": ".data

/-- Heredoc segment opening a window object, up to its percentage. -/
def segPct : Ln := "\x7b\n    \"percent_used\": ".data

/-- Heredoc segment between a percentage and its reset string. -/
def segRes : Ln := ",\n    \"resets\": \"".data

/-- Heredoc segment closing a window object. -/
def segEndBlk : Ln := "\"\n  \x7d".data

/-- Heredoc segment introducing the all-models weekly window. -/
def segWeekAll : Ln := ",\n  \"week_all_models\": ".data

/-- Heredoc segment introducing the Sonnet-only weekly window. -/
def segWeekSon : Ln := ",\n  \"week_sonnet\": ".data

/-- Heredoc segment closing the object (with the trailing newline cat
emits). -/
def segEnd : Ln := "\n\x7d\n".data

/-- The heredoc of the JSON script with its seven interpolation slots. -/
def mkJsonTemplate (ts p1 r1 p2 r2 p3 r3 : Ln) : Ln :=
  segTs ++ (ts ++ (segSess ++ (segPct ++ (p1 ++ (segRes ++ (r1 ++
    (segEndBlk ++ (segWeekAll ++ (segPct ++ (p2 ++ (segRes ++ (r2 ++
      (segEndBlk ++ (segWeekSon ++ (segPct ++ (p3 ++ (segRes ++ (r3 ++
        (segEndBlk ++ segEnd)))))))))))))))))))

/-- The full text printed by the JSON script, given the timestamp text the
external date tool produced and the captured screen. -/
def jsonOutput (ts : Ln) (s : Screen) : Ln :=
  mkJsonTemplate ts
    (dflt0 (winPctDigits sessionHeading s)) (dfltUnknown (winReset sessionHeading s))
    (dflt0 (winPctDigits weekAllHeading s)) (dfltUnknown (winReset weekAllHeading s))
    (dflt0 (winPctDigits weekSonnetHeading s)) (dfltUnknown (winReset weekSonnetHeading s))

/-- A character of the POSIX space class, as matched by the sed
substitution of the basic script. -/
def isSpaceChar (c : Char) : Bool :=
  c = ' ' || c = '\t' || c = '\n' || c = '\x0b' || c = '\x0c' || c = '\r'

/-- The four alternatives of the grep -E filter of the basic script. -/
def basicPats : List Ln :=
  ["Current session".data, "Current week".data, "% used".data, "Resets".data]

/-- Does a line match the grep -E alternation of the basic script? -/
def matchesAnyPat (l : Ln) : Bool := basicPats.any (fun p => containsSub p l)

/-- sed substitution of the basic script: delete leading whitespace. -/
def stripLeadingWs (l : Ln) : Ln := l.dropWhile isSpaceChar

/-- Output lines of the basic script:
grep -E alternation, strip leading whitespace, drop empty lines. -/
def basicFilter (s : Screen) : Screen :=
  ((s.filter matchesAnyPat).map stripLeadingWs).filter (fun l => !l.isEmpty)

/-- Observable effects of one script run. -/
inductive Eff where
  | newSession : Eff
  | sleepSec : Nat → Eff
  | sendKeys : Ln → Eff
  | sendEnter : Eff
  | capturePane : Eff
  | killSession : Eff
  | printOut : Ln → Eff
  deriving DecidableEq

/-- Outcomes of the external collaborators during one run: whether session
creation and key sending succeeded, what capture-pane returned (none for a
failed capture, whose stderr the scripts discard), and the text of the
external date call. None of them can alter the straight-line control flow
of the scripts (no set -e, every stderr redirected). -/
structure Env where
  newSessionOk : Bool
  sendOk : Bool
  captureOut : Option Screen
  dateOut : Ln

/-- The screen the parsing stages see: a failed capture leaves the
captured variable empty. -/
def envScreen (e : Env) : Screen := (e.captureOut).getD []

/-- The fixed tmux choreography shared by all three scripts: create the
session, wait, send the usage command, wait, send enter, wait, capture,
kill. -/
def choreography : List Eff :=
  [Eff.newSession, Eff.sleepSec 4, Eff.sendKeys "/usage".data, Eff.sleepSec 1,
    Eff.sendEnter, Eff.sleepSec 3, Eff.capturePane, Eff.killSession]

/-- Effect trace and exit code of claude-usage.sh. -/
def basicRun (e : Env) : List Eff × Nat :=
  (choreography ++ (basicFilter (envScreen e)).map Eff.printOut, 0)

/-- Effect trace and exit code of claude-usage-compact.sh. -/
def compactRun (e : Env) : List Eff × Nat :=
  (choreography ++ [Eff.printOut (compactLine (envScreen e))], 0)

/-- Effect trace and exit code of claude-usage-json.sh. -/
def jsonRun (e : Env) : List Eff × Nat :=
  (choreography ++ [Eff.printOut (jsonOutput e.dateOut (envScreen e))], 0)

/-- The lines a trace prints. -/
def printedOf : Eff → Option Ln
  | Eff.printOut l => some l
  | _ => none

/-- Number of kill-session invocations in a trace. -/
def killCount (t : List Eff) : Nat := t.count Eff.killSession

/-- JSON whitespace. -/
def isJWs (c : Char) : Bool := c = ' ' || c = '\n' || c = '\t' || c = '\r'

/-- Skip JSON whitespace. -/
def jskip (l : Ln) : Ln := l.dropWhile isJWs

/-- A hexadecimal digit, for JSON unicode escapes. -/
def isHexDig (c : Char) : Bool :=
  c.isDigit || ('a' ≤ c && c ≤ 'f') || ('A' ≤ c && c ≤ 'F')

/-- A valid single-character JSON string escape. -/
def isEscCh (e : Char) : Bool :=
  e = '"' || e = '\\' || e = '/' || e = 'b' || e = 'f' || e = 'n' ||
    e = 'r' || e = 't'

/-- Validate the remainder of a JSON string after its opening quote,
returning the text after the closing quote. -/
def vStrRest : Ln → Option Ln
  | [] => none
  | '"' :: rest => some rest
  | '\\' :: 'u' :: a :: b :: c2 :: d :: rest =>
    if isHexDig a && isHexDig b && isHexDig c2 && isHexDig d then vStrRest rest
    else none
  | '\\' :: e :: rest => if isEscCh e then vStrRest rest else none
  | c :: rest => if c.toNat < 32 then none else vStrRest rest

/-- Drop a digit run. -/
def digitsTail (l : Ln) : Ln := l.dropWhile Char.isDigit

/-- Validate the integer part of a JSON number (leading zeros are not
well-formed JSON). -/
def vInt : Ln → Option Ln
  | [] => none
  | c :: rest =>
    if c = '0' then some rest
    else if c.isDigit then some (digitsTail rest)
    else none

/-- Validate an optional JSON fraction part. -/
def vFrac : Ln → Option Ln
  | [] => some []
  | c :: rest =>
    if c = '.' then
      match rest with
      | [] => none
      | d :: rest2 => if d.isDigit then some (digitsTail rest2) else none
    else some (c :: rest)

/-- Validate an optional JSON exponent part. -/
def vExp : Ln → Option Ln
  | [] => some []
  | c :: rest =>
    if c = 'e' || c = 'E' then
      match rest with
      | [] => none
      | s :: rest2 =>
        if s = '+' || s = '-' then
          match rest2 with
          | [] => none
          | d :: rest3 => if d.isDigit then some (digitsTail rest3) else none
        else if s.isDigit then some (digitsTail rest2)
        else none
    else some (c :: rest)

/-- Validate a JSON number. -/
def vNum : Ln → Option Ln
  | [] => none
  | c :: rest =>
    (vInt (if c = '-' then rest else c :: rest)).bind fun r =>
      (vFrac r).bind vExp

/-- Validate a fixed literal keyword then return the rest. -/
def vLit : Ln → Ln → Option Ln
  | [], l => some l
  | c :: p, l =>
    match l with
    | [] => none
    | d :: l2 => if d = c then vLit p l2 else none

/-- Syntactic class being validated: a value, an object body after its
opening brace, the member list of an object, an array body after its
opening bracket, or the element list of an array. -/
inductive VMode where
  | val : VMode
  | objBody : VMode
  | members : VMode
  | arrBody : VMode
  | elems : VMode

/-- Fuel-bounded JSON validator: validate one item of the given syntactic
class at the front of the text, returning the text after it. Every
recursive step decrements the fuel. -/
def vRun : Nat → VMode → Ln → Option Ln
  | 0, _, _ => none
  | fuel + 1, VMode.val, l =>
    match l with
    | [] => none
    | c :: rest =>
      if c = '"' then vStrRest rest
      else if c = '\x7b' then vRun fuel VMode.objBody (jskip rest)
      else if c = '[' then vRun fuel VMode.arrBody (jskip rest)
      else if c = 't' then vLit "rue".data rest
      else if c = 'f' then vLit "alse".data rest
      else if c = 'n' then vLit "ull".data rest
      else vNum (c :: rest)
  | fuel + 1, VMode.objBody, l =>
    match l with
    | [] => none
    | c :: rest =>
      if c = '\x7d' then some rest
      else vRun fuel VMode.members (c :: rest)
  | fuel + 1, VMode.members, l =>
    match l with
    | [] => none
    | c :: rest =>
      if c = '"' then
        match vStrRest rest with
        | none => none
        | some r1 =>
          match jskip r1 with
          | [] => none
          | c2 :: r2 =>
            if c2 = ':' then
              match vRun fuel VMode.val (jskip r2) with
              | none => none
              | some r3 =>
                match jskip r3 with
                | [] => none
                | c3 :: r4 =>
                  if c3 = ',' then vRun fuel VMode.members (jskip r4)
                  else if c3 = '\x7d' then some r4
                  else none
            else none
      else none
  | fuel + 1, VMode.arrBody, l =>
    match l with
    | [] => none
    | c :: rest =>
      if c = ']' then some rest
      else vRun fuel VMode.elems (c :: rest)
  | fuel + 1, VMode.elems, l =>
    match vRun fuel VMode.val l with
    | none => none
    | some r =>
      match jskip r with
      | [] => none
      | c :: r2 =>
        if c = ',' then vRun fuel VMode.elems (jskip r2)
        else if c = ']' then some r2
        else none

/-- Validate one JSON value. -/
def vVal (fuel : Nat) (l : Ln) : Option Ln := vRun fuel VMode.val l

/-- Validate the member list of an object. -/
def vMembers (fuel : Nat) (l : Ln) : Option Ln := vRun fuel VMode.members l

/-- The continuation of the member loop of the object validator after the
value of a member has been validated: on success, a comma continues the
loop and a closing brace ends the object. -/
def memAfterVal (fuel : Nat) (res : Option Ln) : Option Ln :=
  match res with
  | none => none
  | some r3 =>
    match jskip r3 with
    | [] => none
    | c3 :: r4 =>
      if c3 = ',' then vMembers fuel (jskip r4)
      else if c3 = '\x7d' then some r4
      else none

/-- The session segment without its leading quote. -/
def segSessTail : Ln := ",\n  \"session\": ".data

/-- The resets segment without its leading comma. -/
def segResTail : Ln := "\n    \"resets\": \"".data

/-- Is a text exactly one well-formed JSON object (with surrounding
whitespace allowed)? The fuel bound is generous: every recursion step of
the validator consumes input or crosses an opening brace or bracket. -/
def jsonWf (l : Ln) : Bool :=
  match jskip l with
  | [] => false
  | c :: rest =>
    if c = '\x7b' then
      match vVal (3 * l.length + 3) (c :: rest) with
      | some r => (jskip r).isEmpty
      | none => false
    else false

/-- A character that may sit unescaped inside a JSON string. -/
def jsonSafeChar (c : Char) : Bool :=
  !(c = '"') && !(c = '\\') && !(c.toNat < 32)

/-- A text that may sit unescaped inside a JSON string. -/
def jsonSafeStr (l : Ln) : Bool := l.all jsonSafeChar

/-- An optional extracted text that is safe to interpolate into a JSON
string slot. -/
def optSafe : Option Ln → Bool
  | none => true
  | some r => jsonSafeStr r

/-- An optional extracted digit string that is a canonical JSON integer
numeral (no leading zero). -/
def optCanon : Option Ln → Bool
  | none => true
  | some p => decide (p = ['0']) || !(p.head? = some '0')

/-- Color class choice of the UsageBar component. -/
inductive BarVariant where
  | default : BarVariant
  | opus : BarVariant

/-- The rendered pieces of the UsageBar component. -/
structure BarRender where
  colorClass : Ln
  fillWidthPct : ℚ
  labelValue : ℤ

/-- getColorClass of the UsageBar component. -/
def getColorClass (percent : ℚ) (variant : BarVariant) : Ln :=
  if percent ≥ 90 then "bar-danger".data
  else if percent ≥ 70 then "bar-warning".data
  else
    match variant with
    | BarVariant.opus => "bar-opus".data
    | BarVariant.default => "bar-accent".data

/-- The UsageBar component: clamped fill width, color class, and the
unclamped rounded label. -/
def usageBar (percent : ℚ) (variant : BarVariant) : BarRender :=
  { colorClass := getColorClass percent variant
    fillWidthPct := min 100 (max 0 percent)
    labelValue := round percent }

/-! ## General lemmas about the pipeline stages -/

theorem firstPctTokAux_shape (l : Ln) :
    ∀ acc t, acc.all Char.isDigit = true → firstPctTokAux l acc = some t →
      ∃ ds, ds ≠ [] ∧ ds.all Char.isDigit = true ∧ t = ds ++ ['%'] := by
  induction l with
  | nil => intro acc t _ h; simp [firstPctTokAux] at h
  | cons c rest ih =>
    intro acc t hacc h
    rw [firstPctTokAux] at h
    by_cases hp : c = '%'
    · simp only [hp, if_true] at h
      by_cases he : acc.isEmpty
      · simp only [he, if_true] at h
        exact ih [] t rfl h
      · simp only [he, if_false] at h
        refine ⟨acc.reverse, ?_, ?_, ?_⟩
        · intro hrev
          rw [List.reverse_eq_nil_iff] at hrev
          simp [hrev] at he
        · simpa using hacc
        · exact (Option.some_injective _ h).symm
    · simp only [hp, if_false] at h
      by_cases hd : c.isDigit
      · simp only [hd, if_true] at h
        refine ih (c :: acc) t ?_ h
        simp [hd, hacc]
      · simp only [hd, if_false] at h
        exact ih [] t rfl h

theorem firstPctTok_shape (l : Ln) (t : Ln) (h : firstPctTok l = some t) :
    ∃ ds, ds ≠ [] ∧ ds.all Char.isDigit = true ∧ t = ds ++ ['%'] :=
  firstPctTokAux_shape l [] t rfl h

theorem firstPctInLines_shape (s : Screen) (t : Ln)
    (h : firstPctInLines s = some t) :
    ∃ ds, ds ≠ [] ∧ ds.all Char.isDigit = true ∧ t = ds ++ ['%'] := by
  induction s with
  | nil => simp [firstPctInLines] at h
  | cons l ls ih =>
    rcases hft : firstPctTok l with _ | u
    · rw [firstPctInLines, hft] at h
      exact ih h
    · rw [firstPctInLines, hft] at h
      have hu : (some u : Option Ln) = some t := h
      cases hu
      exact firstPctTok_shape l t hft

theorem firstPctInLines_append_some (xs ys : Screen) (t : Ln)
    (h : firstPctInLines xs = some t) :
    firstPctInLines (xs ++ ys) = some t := by
  induction xs with
  | nil => simp [firstPctInLines] at h
  | cons l ls ih =>
    rcases hft : firstPctTok l with _ | u
    · rw [firstPctInLines, hft] at h
      rw [List.cons_append, firstPctInLines, hft]
      exact ih h
    · rw [firstPctInLines, hft] at h
      rw [List.cons_append, firstPctInLines, hft]
      exact h

theorem grepAaux_two_prefix (p : Ln) (ls : Screen) :
    ∃ rest, grepAaux p 2 2 ls = ls.take 2 ++ rest := by
  match ls with
  | [] => exact ⟨[], rfl⟩
  | [a] =>
    refine ⟨[], ?_⟩
    by_cases ha : containsSub p a <;> simp [grepAaux, ha]
  | a :: b :: t =>
    by_cases ha : containsSub p a <;> by_cases hb : containsSub p b
    · exact ⟨grepAaux p 2 2 t, by simp [grepAaux, ha, hb]⟩
    · exact ⟨grepAaux p 2 1 t, by simp [grepAaux, ha, hb]⟩
    · exact ⟨grepAaux p 2 2 t, by simp [grepAaux, ha, hb]⟩
    · exact ⟨grepAaux p 2 0 t, by simp [grepAaux, ha, hb]⟩

theorem specWindowPct_sound (h : Ln) (s : Screen) (t : Ln)
    (hs : specWindowPct h s = some t) : winPctTok h s = some t := by
  induction s with
  | nil => simp [specWindowPct] at hs
  | cons l ls ih =>
    rw [specWindowPct] at hs
    by_cases hc : containsSub h l
    · simp only [hc, if_true, List.take_succ_cons] at hs
      obtain ⟨rest, hrest⟩ := grepAaux_two_prefix h ls
      show firstPctInLines (grepAaux h 2 0 (l :: ls)) = some t
      rw [grepAaux]
      simp only [hc, if_true, hrest]
      rcases hft : firstPctTok l with _ | u
      · rw [firstPctInLines, hft] at hs
        rw [firstPctInLines, hft]
        exact firstPctInLines_append_some _ _ _ hs
      · rw [firstPctInLines, hft] at hs
        rw [firstPctInLines, hft]
        exact hs
    · simp only [hc, if_false] at hs
      have := ih hs
      show firstPctInLines (grepAaux h 2 0 (l :: ls)) = some t
      rw [grepAaux]
      simp only [hc, if_false]
      exact this

theorem noOcc_grepAaux_nil (h : Ln) (n : Nat) (s : Screen)
    (hno : ∀ l ∈ s, containsSub h l = false) : grepAaux h n 0 s = [] := by
  induction s with
  | nil => rfl
  | cons l ls ih =>
    rw [grepAaux]
    have hl : containsSub h l = false := hno l (by simp)
    simp only [hl, Bool.false_eq_true, if_false]
    exact ih (fun x hx => hno x (by simp [hx]))

theorem afterLast_none_iff (p : Ln) (l : Ln) :
    afterLast p l = none ↔ containsSub p l = false := by
  induction l with
  | nil =>
    rw [afterLast, containsSub]
    by_cases hp : p.isEmpty <;> simp [hp]
  | cons c rest ih =>
    rw [afterLast, containsSub]
    cases har : afterLast p rest with
    | some r =>
      have hrest : containsSub p rest = true := by
        cases hb : containsSub p rest with
        | true => rfl
        | false => exact Option.noConfusion ((ih.mpr hb).symm.trans har)
      simp [hrest]
    | none =>
      have hrest : containsSub p rest = false := ih.mp har
      by_cases hpre : p.isPrefixOf (c :: rest) <;> simp [hpre, hrest]

theorem containsSub_of_drop (p : Ln) (k : Nat) (l : Ln)
    (h : containsSub p (List.drop k l) = true) : containsSub p l = true := by
  induction l generalizing k with
  | nil => simpa using h
  | cons c rest ih =>
    cases k with
    | zero => simpa using h
    | succ k' =>
      rw [List.drop_succ_cons] at h
      rw [containsSub]
      simp [ih k' h]

theorem afterLast_no_occ (p : Ln) (hp : p ≠ []) (l r : Ln)
    (h : afterLast p l = some r) : containsSub p r = false := by
  induction l with
  | nil =>
    rw [afterLast] at h
    have : ¬p.isEmpty := by simpa using hp
    simp [this] at h
  | cons c rest ih =>
    rw [afterLast] at h
    cases har : afterLast p rest with
    | some r' =>
      rw [har] at h
      cases h
      exact ih har
    | none =>
      rw [har] at h
      by_cases hpre : p.isPrefixOf (c :: rest)
      · simp only [hpre, if_true] at h
        have hrest : containsSub p rest = false := (afterLast_none_iff p rest).mp har
        cases h
        cases p with
        | nil => exact absurd rfl hp
        | cons a q =>
          rw [List.length_cons, List.drop_succ_cons]
          cases hc : containsSub (a :: q) (List.drop q.length rest)
          · rfl
          · exact absurd (containsSub_of_drop _ _ _ hc) (by simp [hrest])
      · simp [hpre] at h

/-! ## Claim theorems -/

/-- Claim C1: whenever a recognized heading occurs in the captured text and
the heading line or the two lines after it (the two-line lookahead of
grep -A2) holds an integer-percent token, the parser assigns exactly the
first such token: the compact variable keeps the token, the JSON variable
keeps its digits, and the numeric reading is that integer. -/
theorem c1_heading_pct (h : Ln)
    (_hmem : h = sessionHeading ∨ h = weekAllHeading ∨ h = weekSonnetHeading)
    (s : Screen) (t : Ln) (hspec : specWindowPct h s = some t) :
    winPctTok h s = some t ∧ winPctDigits h s = some (stripPct t) ∧
      winPctVal h s = some (digitsToNat (stripPct t)) := by
  have h1 := specWindowPct_sound h s t hspec
  exact ⟨h1, by simp [winPctDigits, h1], by simp [winPctVal, winPctDigits, h1]⟩

/-- Witness for C1 at a concrete screen. -/
theorem c1_heading_pct_witness :
    winPctTok sessionHeading
        ["Current session".data, "  45% used".data] = some "45%".data ∧
      winPctDigits sessionHeading
        ["Current session".data, "  45% used".data] = some (stripPct "45%".data) ∧
      winPctVal sessionHeading
        ["Current session".data, "  45% used".data] =
        some (digitsToNat (stripPct "45%".data)) :=
  c1_heading_pct sessionHeading (Or.inl rfl)
    ["Current session".data, "  45% used".data] "45%".data (by decide)

/-- Claim C7: on the captured text of the scenario (heading, a 45 percent
line, a reset line) the session window parses to percent 45 with reset
description exactly the text after the keyword. -/
theorem c7_scenario :
    winPctVal sessionHeading
        ["Current session".data, "  45% used".data, "  Resets 2h 30m".data] =
        some 45 ∧
      winPctDigits sessionHeading
        ["Current session".data, "  45% used".data, "  Resets 2h 30m".data] =
        some "45".data ∧
      winReset sessionHeading
        ["Current session".data, "  45% used".data, "  Resets 2h 30m".data] =
        some "2h 30m".data := by
  refine ⟨?_, ?_, ?_⟩ <;> decide

/-- Claim C10: for every numeric percent input the UsageBar fill width is
the clamp min 100 (max 0 percent), hence always within 0 and 100, while
the label shows the unclamped rounded percent. JS numbers are embedded as
exact rationals. -/
theorem c10_usage_bar (p : ℚ) (v : BarVariant) :
    (usageBar p v).fillWidthPct = min 100 (max 0 p) ∧
      0 ≤ (usageBar p v).fillWidthPct ∧ (usageBar p v).fillWidthPct ≤ 100 ∧
      (usageBar p v).labelValue = round p := by
  refine ⟨rfl, ?_, ?_, rfl⟩
  · exact le_min (by norm_num) (le_max_left 0 p)
  · exact min_le_left 100 (max 0 p)

theorem killCount_map_printOut (ls : Screen) :
    killCount (ls.map Eff.printOut) = 0 := by
  rw [killCount, List.count_eq_zero]
  intro hmem
  rw [List.mem_map] at hmem
  obtain ⟨x, _, hx⟩ := hmem
  exact Eff.noConfusion hx

/-- Claim C6: in every environment (session creation, choreography and
capture succeeding or failing in any combination) each of the three
scripts kills the uniquely named tmux session exactly once: teardown is
unconditional on every execution path. -/
theorem c6_teardown (e : Env) :
    killCount (basicRun e).1 = 1 ∧ killCount (compactRun e).1 = 1 ∧
      killCount (jsonRun e).1 = 1 := by
  refine ⟨?_, ?_, ?_⟩
  · show killCount (choreography ++ (basicFilter (envScreen e)).map Eff.printOut) = 1
    rw [killCount, List.count_append]
    have h2 := killCount_map_printOut (basicFilter (envScreen e))
    rw [killCount] at h2
    rw [h2]
    decide
  · show killCount (choreography ++ [Eff.printOut (compactLine (envScreen e))]) = 1
    rw [killCount, List.count_append]
    rw [List.count_eq_zero.mpr (by simp : Eff.killSession ∉ [Eff.printOut (compactLine (envScreen e))])]
    decide
  · show killCount (choreography ++ [Eff.printOut (jsonOutput e.dateOut (envScreen e))]) = 1
    rw [killCount, List.count_append]
    rw [List.count_eq_zero.mpr (by simp : Eff.killSession ∉ [Eff.printOut (jsonOutput e.dateOut (envScreen e))])]
    decide

theorem win_none_of_noOcc (h : Ln) (s : Screen)
    (hno : ∀ l ∈ s, containsSub h l = false) :
    winPctTok h s = none ∧ winPctDigits h s = none ∧ winReset h s = none := by
  have h2 : grepAaux h 2 0 s = [] := noOcc_grepAaux_nil h 2 s hno
  have h3 : grepAaux h 3 0 s = [] := noOcc_grepAaux_nil h 3 s hno
  refine ⟨?_, ?_, ?_⟩
  · show firstPctInLines (grepAaux h 2 0 s) = none
    rw [h2]; rfl
  · show (firstPctInLines (grepAaux h 2 0 s)).map stripPct = none
    rw [h2]; rfl
  · show (((grepAaux h 3 0 s).filter (containsSub resetsKeyword)).map sedStripResets).head? = none
    rw [h3]; rfl

theorem compactLine_mem (s : Screen) (c : Char) (hc : c ∈ compactLine s) :
    c ∈ "Claude: ".data ∨ c ∈ " | Week: ".data ∨ c = '?' ∨ c = '%' ∨
      c.isDigit = true := by
  have slot : ∀ h : Ln, c ∈ dfltQ (winPctTok h s) →
      c = '?' ∨ c = '%' ∨ c.isDigit = true := by
    intro h hcm
    cases ho : winPctTok h s with
    | none => rw [ho] at hcm; left; simpa [dfltQ] using hcm
    | some u =>
      rw [ho] at hcm
      obtain ⟨ds, _, hdig, hu⟩ := firstPctInLines_shape _ _ ho
      rw [hu] at hcm
      simp only [dfltQ, Option.getD_some, List.mem_append, List.mem_singleton] at hcm
      rcases hcm with hcd | hcp
      · right; right; exact List.all_eq_true.mp hdig c hcd
      · right; left; exact hcp
  rw [compactLine] at hc
  simp only [List.mem_append] at hc
  rcases hc with h1 | h2 | h3 | h4
  · exact Or.inl h1
  · rcases slot sessionHeading h2 with h | h | h <;> simp [h]
  · exact Or.inr (Or.inl h3)
  · rcases slot weekAllHeading h4 with h | h | h <;> simp [h]

/-- Claim C2 counterexample: on a captured text whose session lookahead
holds the token of value 250 the compact output contains the raw value
250, which is greater than 100 — the out-of-range match is emitted
verbatim, not treated as absent. -/
theorem c2_counterexample :
    winPctTok sessionHeading ["Current session".data, "  250% used".data] =
        some "250%".data ∧
      digitsToNat (stripPct "250%".data) = 250 ∧ 100 < 250 ∧
      compactLine ["Current session".data, "  250% used".data] =
        "Claude: 250% | Week: ?".data := by
  refine ⟨?_, ?_, ?_, ?_⟩ <;> decide

/-- Claim C2 as amended: the compact output never contains a raw negative
percentage — every matched token is an unsigned digit run followed by the
percent sign, and no minus sign can appear in the output — but matched
values greater than 100 are emitted verbatim rather than treated as
absent (see the counterexample). -/
theorem c2_amended (s : Screen) :
    '-' ∉ compactLine s ∧
      (winPctTok sessionHeading s = none ∨
        ∃ ds, ds ≠ [] ∧ ds.all Char.isDigit = true ∧
          winPctTok sessionHeading s = some (ds ++ ['%'])) ∧
      (winPctTok weekAllHeading s = none ∨
        ∃ ds, ds ≠ [] ∧ ds.all Char.isDigit = true ∧
          winPctTok weekAllHeading s = some (ds ++ ['%'])) := by
  refine ⟨?_, ?_, ?_⟩
  · intro hmem
    rcases compactLine_mem s '-' hmem with h | h | h | h | h <;>
      exact absurd h (by decide)
  · cases ho : winPctTok sessionHeading s with
    | none => exact Or.inl rfl
    | some u =>
      obtain ⟨ds, hne, hdig, hu⟩ := firstPctInLines_shape _ _ ho
      exact Or.inr ⟨ds, hne, hdig, by rw [hu]⟩
  · cases ho : winPctTok weekAllHeading s with
    | none => exact Or.inl rfl
    | some u =>
      obtain ⟨ds, hne, hdig, hu⟩ := firstPctInLines_shape _ _ ho
      exact Or.inr ⟨ds, hne, hdig, by rw [hu]⟩

/-- Claim C4: in every environment the compact script exits 0 and prints
exactly one line of the fixed template, each window slot holding either
the matched percent token or the question-mark placeholder (never a
fabricated number), with no embedded line break. -/
theorem c4_compact (e : Env) :
    (compactRun e).2 = 0 ∧
      (compactRun e).1.filterMap printedOf = [compactLine (envScreen e)] ∧
      compactLine (envScreen e) =
        "Claude: ".data ++ (dfltQ (winPctTok sessionHeading (envScreen e)) ++
          (" | Week: ".data ++ dfltQ (winPctTok weekAllHeading (envScreen e)))) ∧
      (dfltQ (winPctTok sessionHeading (envScreen e)) = ['?'] ∧
          winPctTok sessionHeading (envScreen e) = none ∨
        ∃ ds, ds ≠ [] ∧ ds.all Char.isDigit = true ∧
          dfltQ (winPctTok sessionHeading (envScreen e)) = ds ++ ['%'] ∧
          winPctTok sessionHeading (envScreen e) = some (ds ++ ['%'])) ∧
      (dfltQ (winPctTok weekAllHeading (envScreen e)) = ['?'] ∧
          winPctTok weekAllHeading (envScreen e) = none ∨
        ∃ ds, ds ≠ [] ∧ ds.all Char.isDigit = true ∧
          dfltQ (winPctTok weekAllHeading (envScreen e)) = ds ++ ['%'] ∧
          winPctTok weekAllHeading (envScreen e) = some (ds ++ ['%'])) ∧
      '\n' ∉ compactLine (envScreen e) := by
  have slot : ∀ h : Ln,
      dfltQ (winPctTok h (envScreen e)) = ['?'] ∧ winPctTok h (envScreen e) = none ∨
        ∃ ds, ds ≠ [] ∧ ds.all Char.isDigit = true ∧
          dfltQ (winPctTok h (envScreen e)) = ds ++ ['%'] ∧
          winPctTok h (envScreen e) = some (ds ++ ['%']) := by
    intro h
    cases ho : winPctTok h (envScreen e) with
    | none => exact Or.inl ⟨rfl, rfl⟩
    | some u =>
      obtain ⟨ds, hne, hdig, hu⟩ := firstPctInLines_shape _ _ ho
      subst hu
      exact Or.inr ⟨ds, hne, hdig, rfl, rfl⟩
  refine ⟨rfl, ?_, rfl, slot sessionHeading, slot weekAllHeading, ?_⟩
  · show (choreography ++
        [Eff.printOut (compactLine (envScreen e))]).filterMap printedOf = _
    rw [List.filterMap_append]
    rfl
  · intro hmem
    rcases compactLine_mem (envScreen e) '\n' hmem with h | h | h | h | h <;>
      exact absurd h (by decide)

/-- Claim C5: when a window heading is absent from the captured text that
window's output fields take their defaults (0 and unknown in the JSON
object, the question-mark placeholder in the compact line) while every
other window slot remains exactly its own standalone parse of the same
screen — the three window parses are computed independently. -/
theorem c5_missing_heading (ts : Ln) (s : Screen) :
    ((∀ l ∈ s, containsSub weekAllHeading l = false) →
      jsonOutput ts s =
        mkJsonTemplate ts (dflt0 (winPctDigits sessionHeading s))
          (dfltUnknown (winReset sessionHeading s)) ['0'] "unknown".data
          (dflt0 (winPctDigits weekSonnetHeading s))
          (dfltUnknown (winReset weekSonnetHeading s)) ∧
      compactLine s =
        "Claude: ".data ++ (dfltQ (winPctTok sessionHeading s) ++
          (" | Week: ".data ++ ['?']))) ∧
    ((∀ l ∈ s, containsSub sessionHeading l = false) →
      jsonOutput ts s =
        mkJsonTemplate ts ['0'] "unknown".data
          (dflt0 (winPctDigits weekAllHeading s))
          (dfltUnknown (winReset weekAllHeading s))
          (dflt0 (winPctDigits weekSonnetHeading s))
          (dfltUnknown (winReset weekSonnetHeading s)) ∧
      compactLine s =
        "Claude: ".data ++ (['?'] ++
          (" | Week: ".data ++ dfltQ (winPctTok weekAllHeading s)))) ∧
    ((∀ l ∈ s, containsSub weekSonnetHeading l = false) →
      jsonOutput ts s =
        mkJsonTemplate ts (dflt0 (winPctDigits sessionHeading s))
          (dfltUnknown (winReset sessionHeading s))
          (dflt0 (winPctDigits weekAllHeading s))
          (dfltUnknown (winReset weekAllHeading s)) ['0'] "unknown".data) := by
  refine ⟨fun hno => ?_, fun hno => ?_, fun hno => ?_⟩
  · obtain ⟨hp, hd, hr⟩ := win_none_of_noOcc weekAllHeading s hno
    constructor
    · rw [jsonOutput, hd, hr]; rfl
    · rw [compactLine, hp]; rfl
  · obtain ⟨hp, hd, hr⟩ := win_none_of_noOcc sessionHeading s hno
    constructor
    · rw [jsonOutput, hd, hr]; rfl
    · rw [compactLine, hp]; rfl
  · obtain ⟨hp, hd, hr⟩ := win_none_of_noOcc weekSonnetHeading s hno
    rw [jsonOutput, hd, hr]; rfl

/-- Witness for C5 at a concrete screen holding none of the headings. -/
theorem c5_missing_heading_witness :
    (jsonOutput "t".data [['x']] =
        mkJsonTemplate "t".data (dflt0 (winPctDigits sessionHeading [['x']]))
          (dfltUnknown (winReset sessionHeading [['x']])) ['0'] "unknown".data
          (dflt0 (winPctDigits weekSonnetHeading [['x']]))
          (dfltUnknown (winReset weekSonnetHeading [['x']])) ∧
      compactLine [['x']] =
        "Claude: ".data ++ (dfltQ (winPctTok sessionHeading [['x']]) ++
          (" | Week: ".data ++ ['?']))) ∧
    (jsonOutput "t".data [['x']] =
        mkJsonTemplate "t".data ['0'] "unknown".data
          (dflt0 (winPctDigits weekAllHeading [['x']]))
          (dfltUnknown (winReset weekAllHeading [['x']]))
          (dflt0 (winPctDigits weekSonnetHeading [['x']]))
          (dfltUnknown (winReset weekSonnetHeading [['x']])) ∧
      compactLine [['x']] =
        "Claude: ".data ++ (['?'] ++
          (" | Week: ".data ++ dfltQ (winPctTok weekAllHeading [['x']])))) :=
  ⟨(c5_missing_heading "t".data [['x']]).1 (by decide),
    (c5_missing_heading "t".data [['x']]).2.1 (by decide)⟩

/-- Claim C8 counterexample: on a captured text whose first matching reset
line is the bare keyword with no following space, the extracted
description is the whole line, while the text after the last occurrence
of the keyword-plus-space does not exist — the claim's description of the
extraction fails on this input. -/
theorem c8_counterexample :
    winReset sessionHeading ["Current session".data, "Resets".data] =
        some "Resets".data ∧
      specReset sessionHeading ["Current session".data, "Resets".data] = none := by
  refine ⟨?_, ?_⟩ <;> decide

/-- Claim C8 as amended: the extracted reset description is the text after
the last occurrence of the keyword-plus-space on the first matching line
when that line holds such an occurrence, and the whole matching line
verbatim otherwise (the sed pattern then does not match); in either case
the emitted string never contains the keyword-plus-space. -/
theorem c8_amended (h : Ln) (s : Screen) (r : Ln) (hr : winReset h s = some r) :
    (∃ l, firstResetsLine h s = some l ∧
      (afterLast resetsSp l = some r ∨ afterLast resetsSp l = none ∧ r = l)) ∧
      containsSub resetsSp r = false := by
  rw [winReset] at hr
  rcases hL : (grepA 3 h s).filter (containsSub resetsKeyword) with _ | ⟨l, tail⟩
  · rw [hL] at hr; simp at hr
  · rw [hL] at hr
    simp only [List.map_cons, List.head?_cons, Option.some_inj] at hr
    have hfl : firstResetsLine h s = some l := by rw [firstResetsLine, hL]; rfl
    rw [sedStripResets] at hr
    cases hal : afterLast resetsSp l with
    | some x =>
      rw [hal] at hr
      simp only [Option.getD_some] at hr
      subst hr
      exact ⟨⟨l, hfl, Or.inl hal⟩,
        afterLast_no_occ resetsSp (by decide) l x hal⟩
    | none =>
      rw [hal] at hr
      simp only [Option.getD_none] at hr
      exact ⟨⟨l, hfl, Or.inr ⟨hal, hr.symm⟩⟩,
        hr ▸ (afterLast_none_iff _ _).mp hal⟩

/-- Witness for C8 as amended, at the scenario screen. -/
theorem c8_amended_witness :
    ((∃ l, firstResetsLine sessionHeading
        ["Current session".data, "  45% used".data, "  Resets 2h 30m".data] =
          some l ∧
      (afterLast resetsSp l = some "2h 30m".data ∨
        afterLast resetsSp l = none ∧ "2h 30m".data = l)) ∧
      containsSub resetsSp "2h 30m".data = false) :=
  c8_amended sessionHeading
    ["Current session".data, "  45% used".data, "  Resets 2h 30m".data]
    "2h 30m".data (by decide)

theorem dropWhile_cons_head_false (q : Char → Bool) (l : Ln) (c : Char) (t : Ln)
    (h : l.dropWhile q = c :: t) : q c = false := by
  induction l with
  | nil => simp [List.dropWhile] at h
  | cons a rest ih =>
    rw [List.dropWhile_cons] at h
    by_cases hq : q a
    · rw [if_pos hq] at h; exact ih h
    · rw [if_neg hq] at h
      injection h with h1 h2
      subst h1
      simpa using hq

theorem containsSub_dropWhile (q : Char → Bool) (p : Ln) (c0 : Char)
    (hp : p.head? = some c0) (hc0 : q c0 = false) (l : Ln)
    (h : containsSub p l = true) : containsSub p (l.dropWhile q) = true := by
  induction l with
  | nil => simpa using h
  | cons a rest ih =>
    rw [List.dropWhile_cons]
    by_cases hq : q a
    · rw [if_pos hq]
      apply ih
      rw [containsSub, Bool.or_eq_true] at h
      rcases h with hpre | hrest
      · exfalso
        cases p with
        | nil => simp at hp
        | cons b bs =>
          have hb : b = c0 := by simpa using hp
          have hpre2 : ((b == a) && bs.isPrefixOf rest) = true := hpre
          have hba : b = a := eq_of_beq ((Bool.and_eq_true _ _).mp hpre2).1
          rw [hba] at hb
          rw [hb] at hq
          rw [hc0] at hq
          exact Bool.noConfusion hq
      · exact hrest
    · rw [if_neg hq]; exact h

/-- Claim C9: every line printed by the basic entry point is non-empty,
starts with a non-whitespace character, and still matches the grep
alternation (it contains one of the four recognized substrings). -/
theorem c9_basic_lines (s : Screen) (l : Ln) (hl : l ∈ basicFilter s) :
    ∃ c t, l = c :: t ∧ isSpaceChar c = false ∧ matchesAnyPat l = true := by
  rw [basicFilter, List.mem_filter] at hl
  obtain ⟨hmap, hne⟩ := hl
  rw [List.mem_map] at hmap
  obtain ⟨l0, hl0, hstrip⟩ := hmap
  rw [List.mem_filter] at hl0
  obtain ⟨_, hmatch⟩ := hl0
  rcases hcons : l with _ | ⟨c, t⟩
  · rw [hcons] at hne; simp at hne
  · refine ⟨c, t, rfl, ?_, ?_⟩
    · exact dropWhile_cons_head_false isSpaceChar l0 c t
        (by rw [← hcons, ← hstrip]; rfl)
    · rw [← hcons, ← hstrip]
      rw [matchesAnyPat, List.any_eq_true] at hmatch ⊢
      obtain ⟨p, hpmem, hpc⟩ := hmatch
      refine ⟨p, hpmem, ?_⟩
      have hhead : ∃ c0, p.head? = some c0 ∧ isSpaceChar c0 = false := by
        rw [basicPats] at hpmem
        simp only [List.mem_cons, List.not_mem_nil, or_false] at hpmem
        rcases hpmem with h | h | h | h
        · exact ⟨'C', by rw [h]; rfl, by decide⟩
        · exact ⟨'C', by rw [h]; rfl, by decide⟩
        · exact ⟨'%', by rw [h]; rfl, by decide⟩
        · exact ⟨'R', by rw [h]; rfl, by decide⟩
      obtain ⟨c0, hp0, hc0⟩ := hhead
      exact containsSub_dropWhile isSpaceChar p c0 hp0 hc0 l0 hpc

/-- Witness for C9 at a concrete screen. -/
theorem c9_basic_lines_witness :
    ∃ c t, "Current session".data = c :: t ∧ isSpaceChar c = false ∧
      matchesAnyPat "Current session".data = true :=
  c9_basic_lines ["  Current session".data, "junk".data]
    "Current session".data (by decide)

theorem vStrRest_safe (r : Ln) (rest : Ln) (h : jsonSafeStr r = true) :
    vStrRest (r ++ '"' :: rest) = some rest := by
  induction r with
  | nil => rfl
  | cons c r' ih =>
    rw [jsonSafeStr, List.all_cons, Bool.and_eq_true] at h
    obtain ⟨hc, hr'⟩ := h
    rw [jsonSafeChar] at hc
    simp only [Bool.and_eq_true, Bool.not_eq_true', decide_eq_false_iff_not] at hc
    obtain ⟨⟨h1, h2⟩, h3⟩ := hc
    rw [List.cons_append, vStrRest, if_neg h3]
    · exact ih hr'
    · exact fun hcc => h1 hcc
    · exact fun a b c2 d r1 hcc _ => h2 hcc
    · exact fun e r1 hcc _ => h2 hcc

theorem digits_dropWhile_append (ds : Ln) (hds : ds.all Char.isDigit = true)
    (x : Char) (hx : x.isDigit = false) (r : Ln) :
    List.dropWhile Char.isDigit (ds ++ x :: r) = x :: r := by
  induction ds with
  | nil => rw [List.nil_append, List.dropWhile_cons, hx]; simp
  | cons d ds' ih =>
    rw [List.all_cons, Bool.and_eq_true] at hds
    rw [List.cons_append, List.dropWhile_cons, hds.1]
    simpa using ih hds.2

theorem vNum_canon (p : Ln)
    (hp : p = ['0'] ∨ p ≠ [] ∧ p.all Char.isDigit = true ∧ p.head? ≠ some '0')
    (r : Ln) : vNum (p ++ ',' :: r) = some (',' :: r) := by
  rcases hp with h0 | ⟨hne, hdig, hhd⟩
  · subst h0; rfl
  · rcases p with _ | ⟨c, p'⟩
    · exact absurd rfl hne
    · rw [List.all_cons, Bool.and_eq_true] at hdig
      obtain ⟨hc, hp'⟩ := hdig
      have hcm : ¬(c = '-') := fun h => by subst h; exact absurd hc (by decide)
      have hc0 : ¬(c = '0') := fun h => hhd (by rw [h]; rfl)
      rw [List.cons_append, vNum, if_neg hcm, vInt, if_neg hc0, if_pos hc]
      rw [digitsTail, digits_dropWhile_append p' hp' ',' (by decide) r]
      rfl

theorem isJWs_false_of_digit (c : Char) (hc : c.isDigit = true) :
    isJWs c = false := by
  rw [isJWs]
  have h1 : ¬(c = ' ') := fun h => by subst h; exact absurd hc (by decide)
  have h2 : ¬(c = '\n') := fun h => by subst h; exact absurd hc (by decide)
  have h3 : ¬(c = '\t') := fun h => by subst h; exact absurd hc (by decide)
  have h4 : ¬(c = '\r') := fun h => by subst h; exact absurd hc (by decide)
  simp [h1, h2, h3, h4]

theorem dropWhile_isJWs_cons_digit (c : Char) (l : Ln) (hc : c.isDigit = true) :
    List.dropWhile isJWs (c :: l) = c :: l := by
  rw [List.dropWhile_cons, isJWs_false_of_digit c hc]
  simp

theorem vVal_digit (f : Nat) (c : Char) (l : Ln) (hc : c.isDigit = true) :
    vVal (f + 2) (c :: l) = vNum (c :: l) := by
  have h1 : ¬(c = '"') := fun h => by subst h; exact absurd hc (by decide)
  have h2 : ¬(c = '\x7b') := fun h => by subst h; exact absurd hc (by decide)
  have h3 : ¬(c = '[') := fun h => by subst h; exact absurd hc (by decide)
  have h4 : ¬(c = 't') := fun h => by subst h; exact absurd hc (by decide)
  have h5 : ¬(c = 'f') := fun h => by subst h; exact absurd hc (by decide)
  have h6 : ¬(c = 'n') := fun h => by subst h; exact absurd hc (by decide)
  show (if c = '"' then vStrRest l
    else if c = '\x7b' then vRun (f + 1) VMode.objBody (jskip l)
    else if c = '[' then vRun (f + 1) VMode.arrBody (jskip l)
    else if c = 't' then vLit "rue".data l
    else if c = 'f' then vLit "alse".data l
    else if c = 'n' then vLit "ull".data l
    else vNum (c :: l)) = vNum (c :: l)
  rw [if_neg h1, if_neg h2, if_neg h3, if_neg h4, if_neg h5, if_neg h6]

theorem vVal_segPct (f : Nat) (x : Ln) :
    vVal (f + 5) (segPct ++ x) =
      memAfterVal (f + 2) (vVal (f + 2) (List.dropWhile isJWs x)) := rfl

theorem memAfterVal_segRes (f : Nat) (z : Ln) :
    memAfterVal (f + 2) (some (segRes ++ z)) =
      memAfterVal (f + 1) (vStrRest z) := rfl

theorem memAfterVal_close (fuel : Nat) (tail : Ln) :
    memAfterVal fuel
        (some ('\n' :: (' ' :: (' ' :: ('\x7d' :: tail))))) = some tail := rfl

theorem vVal_block (f : Nat) (p r tail : Ln)
    (hp : p = ['0'] ∨ p ≠ [] ∧ p.all Char.isDigit = true ∧ p.head? ≠ some '0')
    (hr : jsonSafeStr r = true) :
    vVal (f + 5) (segPct ++ (p ++ (segRes ++ (r ++ (segEndBlk ++ tail))))) =
      some tail := by
  have hphead : ∃ c p', p = c :: p' ∧ c.isDigit = true := by
    rcases hp with h0 | ⟨hne, hdig, _⟩
    · exact ⟨'0', [], h0, by decide⟩
    · rcases p with _ | ⟨c, p'⟩
      · exact absurd rfl hne
      · rw [List.all_cons, Bool.and_eq_true] at hdig
        exact ⟨c, p', rfl, hdig.1⟩
  obtain ⟨c, p', hpc, hc⟩ := hphead
  have hdw : List.dropWhile isJWs
      (p ++ (segRes ++ (r ++ (segEndBlk ++ tail)))) =
      p ++ (segRes ++ (r ++ (segEndBlk ++ tail))) := by
    rw [hpc]
    exact dropWhile_isJWs_cons_digit c _ hc
  have hvd : vVal (f + 2) (p ++ (segRes ++ (r ++ (segEndBlk ++ tail)))) =
      vNum (p ++ (segRes ++ (r ++ (segEndBlk ++ tail)))) := by
    rw [hpc]
    exact vVal_digit f c _ hc
  have hsplit : segRes ++ (r ++ (segEndBlk ++ tail)) =
      ',' :: (segResTail ++ (r ++ (segEndBlk ++ tail))) := rfl
  have hseg : r ++ (segEndBlk ++ tail) =
      r ++ ('"' :: ('\n' :: (' ' :: (' ' :: ('\x7d' :: tail))))) := rfl
  calc
    vVal (f + 5) (segPct ++ (p ++ (segRes ++ (r ++ (segEndBlk ++ tail)))))
        = memAfterVal (f + 2) (vVal (f + 2)
            (List.dropWhile isJWs
              (p ++ (segRes ++ (r ++ (segEndBlk ++ tail)))))) :=
          vVal_segPct f _
    _ = memAfterVal (f + 2)
          (vNum (p ++ (segRes ++ (r ++ (segEndBlk ++ tail))))) := by
          rw [hdw, hvd]
    _ = memAfterVal (f + 2)
          (some (segRes ++ (r ++ (segEndBlk ++ tail)))) := by
          rw [hsplit]
          exact congrArg _ (vNum_canon p hp _)
    _ = memAfterVal (f + 1) (vStrRest (r ++ (segEndBlk ++ tail))) :=
          memAfterVal_segRes f _
    _ = memAfterVal (f + 1)
          (some ('\n' :: (' ' :: (' ' :: ('\x7d' :: tail))))) := by
          rw [hseg]
          exact congrArg _ (vStrRest_safe r _ hr)
    _ = some tail := memAfterVal_close (f + 1) tail

theorem vVal_segTs (f : Nat) (ts y : Ln) :
    vVal (f + 4) (segTs ++ (ts ++ y)) =
      memAfterVal (f + 1) (vStrRest (ts ++ y)) := rfl

theorem memAfterVal_sess (f : Nat) (x : Ln) :
    memAfterVal (f + 1) (some (segSessTail ++ (segPct ++ x))) =
      memAfterVal f (vVal f (segPct ++ x)) := rfl

theorem memAfterVal_weekAll (f : Nat) (x : Ln) :
    memAfterVal (f + 1) (some (segWeekAll ++ (segPct ++ x))) =
      memAfterVal f (vVal f (segPct ++ x)) := rfl

theorem memAfterVal_weekSon (f : Nat) (x : Ln) :
    memAfterVal (f + 1) (some (segWeekSon ++ (segPct ++ x))) =
      memAfterVal f (vVal f (segPct ++ x)) := rfl

theorem memAfterVal_end (fuel : Nat) :
    memAfterVal fuel (some segEnd) = some ['\n'] := rfl

theorem vVal_template (k : Nat) (ts p1 r1 p2 r2 p3 r3 : Ln)
    (hts : jsonSafeStr ts = true)
    (hp1 : p1 = ['0'] ∨ p1 ≠ [] ∧ p1.all Char.isDigit = true ∧ p1.head? ≠ some '0')
    (hp2 : p2 = ['0'] ∨ p2 ≠ [] ∧ p2.all Char.isDigit = true ∧ p2.head? ≠ some '0')
    (hp3 : p3 = ['0'] ∨ p3 ≠ [] ∧ p3.all Char.isDigit = true ∧ p3.head? ≠ some '0')
    (hr1 : jsonSafeStr r1 = true) (hr2 : jsonSafeStr r2 = true)
    (hr3 : jsonSafeStr r3 = true) :
    vVal (k + 11) (mkJsonTemplate ts p1 r1 p2 r2 p3 r3) = some ['\n'] :=
  calc
    vVal (k + 11) (mkJsonTemplate ts p1 r1 p2 r2 p3 r3)
        = memAfterVal (k + 8) (vStrRest (ts ++ (segSess ++ (segPct ++
            (p1 ++ (segRes ++ (r1 ++ (segEndBlk ++ (segWeekAll ++ (segPct ++
              (p2 ++ (segRes ++ (r2 ++ (segEndBlk ++ (segWeekSon ++ (segPct ++
                (p3 ++ (segRes ++ (r3 ++ (segEndBlk ++
                  segEnd)))))))))))))))))))) :=
      vVal_segTs (k + 7) ts _
    _ = memAfterVal (k + 8) (some (segSessTail ++ (segPct ++
            (p1 ++ (segRes ++ (r1 ++ (segEndBlk ++ (segWeekAll ++ (segPct ++
              (p2 ++ (segRes ++ (r2 ++ (segEndBlk ++ (segWeekSon ++ (segPct ++
                (p3 ++ (segRes ++ (r3 ++ (segEndBlk ++
                  segEnd))))))))))))))))))) := by
      rw [show (ts ++ (segSess ++ (segPct ++
            (p1 ++ (segRes ++ (r1 ++ (segEndBlk ++ (segWeekAll ++ (segPct ++
              (p2 ++ (segRes ++ (r2 ++ (segEndBlk ++ (segWeekSon ++ (segPct ++
                (p3 ++ (segRes ++ (r3 ++ (segEndBlk ++ segEnd)))))))))))))))))))
          = ts ++ ('"' :: (segSessTail ++ (segPct ++
            (p1 ++ (segRes ++ (r1 ++ (segEndBlk ++ (segWeekAll ++ (segPct ++
              (p2 ++ (segRes ++ (r2 ++ (segEndBlk ++ (segWeekSon ++ (segPct ++
                (p3 ++ (segRes ++ (r3 ++ (segEndBlk ++
                  segEnd))))))))))))))))))) from rfl]
      rw [vStrRest_safe ts _ hts]
    _ = memAfterVal (k + 7) (vVal (k + 7) (segPct ++
            (p1 ++ (segRes ++ (r1 ++ (segEndBlk ++ (segWeekAll ++ (segPct ++
              (p2 ++ (segRes ++ (r2 ++ (segEndBlk ++ (segWeekSon ++ (segPct ++
                (p3 ++ (segRes ++ (r3 ++ (segEndBlk ++
                  segEnd)))))))))))))))))) :=
      memAfterVal_sess (k + 7) _
    _ = memAfterVal (k + 7) (some (segWeekAll ++ (segPct ++
              (p2 ++ (segRes ++ (r2 ++ (segEndBlk ++ (segWeekSon ++ (segPct ++
                (p3 ++ (segRes ++ (r3 ++ (segEndBlk ++
                  segEnd))))))))))))) := by
      rw [show vVal (k + 7) (segPct ++
            (p1 ++ (segRes ++ (r1 ++ (segEndBlk ++ (segWeekAll ++ (segPct ++
              (p2 ++ (segRes ++ (r2 ++ (segEndBlk ++ (segWeekSon ++ (segPct ++
                (p3 ++ (segRes ++ (r3 ++ (segEndBlk ++ segEnd)))))))))))))))))
          = some (segWeekAll ++ (segPct ++
              (p2 ++ (segRes ++ (r2 ++ (segEndBlk ++ (segWeekSon ++ (segPct ++
                (p3 ++ (segRes ++ (r3 ++ (segEndBlk ++ segEnd))))))))))))
        from vVal_block (k + 2) p1 r1 _ hp1 hr1]
    _ = memAfterVal (k + 6) (vVal (k + 6) (segPct ++
              (p2 ++ (segRes ++ (r2 ++ (segEndBlk ++ (segWeekSon ++ (segPct ++
                (p3 ++ (segRes ++ (r3 ++ (segEndBlk ++
                  segEnd)))))))))))) :=
      memAfterVal_weekAll (k + 6) _
    _ = memAfterVal (k + 6) (some (segWeekSon ++ (segPct ++
                (p3 ++ (segRes ++ (r3 ++ (segEndBlk ++ segEnd))))))) := by
      rw [show vVal (k + 6) (segPct ++
              (p2 ++ (segRes ++ (r2 ++ (segEndBlk ++ (segWeekSon ++ (segPct ++
                (p3 ++ (segRes ++ (r3 ++ (segEndBlk ++ segEnd)))))))))))
          = some (segWeekSon ++ (segPct ++
                (p3 ++ (segRes ++ (r3 ++ (segEndBlk ++ segEnd))))))
        from vVal_block (k + 1) p2 r2 _ hp2 hr2]
    _ = memAfterVal (k + 5) (vVal (k + 5) (segPct ++
                (p3 ++ (segRes ++ (r3 ++ (segEndBlk ++ segEnd)))))) :=
      memAfterVal_weekSon (k + 5) _
    _ = memAfterVal (k + 5) (some segEnd) := by
      rw [show vVal (k + 5) (segPct ++
                (p3 ++ (segRes ++ (r3 ++ (segEndBlk ++ segEnd)))))
          = some segEnd from vVal_block k p3 r3 _ hp3 hr3]
    _ = some ['\n'] := memAfterVal_end (k + 5)

theorem jsonWf_template (ts p1 r1 p2 r2 p3 r3 : Ln)
    (hts : jsonSafeStr ts = true)
    (hp1 : p1 = ['0'] ∨ p1 ≠ [] ∧ p1.all Char.isDigit = true ∧ p1.head? ≠ some '0')
    (hp2 : p2 = ['0'] ∨ p2 ≠ [] ∧ p2.all Char.isDigit = true ∧ p2.head? ≠ some '0')
    (hp3 : p3 = ['0'] ∨ p3 ≠ [] ∧ p3.all Char.isDigit = true ∧ p3.head? ≠ some '0')
    (hr1 : jsonSafeStr r1 = true) (hr2 : jsonSafeStr r2 = true)
    (hr3 : jsonSafeStr r3 = true) :
    jsonWf (mkJsonTemplate ts p1 r1 p2 r2 p3 r3) = true := by
  have hlen : 3 ≤ (mkJsonTemplate ts p1 r1 p2 r2 p3 r3).length := by
    show 3 ≤ (segTs ++ (ts ++ (segSess ++ (segPct ++
      (p1 ++ (segRes ++ (r1 ++ (segEndBlk ++ (segWeekAll ++ (segPct ++
        (p2 ++ (segRes ++ (r2 ++ (segEndBlk ++ (segWeekSon ++ (segPct ++
          (p3 ++ (segRes ++ (r3 ++ (segEndBlk ++ segEnd)))))))))))))))))))).length
    rw [List.length_append]
    have h18 : segTs.length = 18 := rfl
    omega
  obtain ⟨k, hk⟩ :
      ∃ k, 3 * (mkJsonTemplate ts p1 r1 p2 r2 p3 r3).length + 3 = k + 11 :=
    ⟨3 * (mkJsonTemplate ts p1 r1 p2 r2 p3 r3).length - 8, by omega⟩
  have hv : vVal (3 * (mkJsonTemplate ts p1 r1 p2 r2 p3 r3).length + 3)
      (mkJsonTemplate ts p1 r1 p2 r2 p3 r3) = some ['\n'] := by
    rw [hk]
    exact vVal_template k ts p1 r1 p2 r2 p3 r3 hts hp1 hp2 hp3 hr1 hr2 hr3
  calc
    jsonWf (mkJsonTemplate ts p1 r1 p2 r2 p3 r3)
        = (match vVal (3 * (mkJsonTemplate ts p1 r1 p2 r2 p3 r3).length + 3)
            (mkJsonTemplate ts p1 r1 p2 r2 p3 r3) with
          | some r => (jskip r).isEmpty
          | none => false) := rfl
    _ = true := by rw [hv]; rfl

theorem stripPct_digits (ds : Ln) (hdig : ds.all Char.isDigit = true) :
    stripPct (ds ++ ['%']) = ds := by
  rw [stripPct, List.filter_append]
  have h1 : List.filter (fun c => !(c = '%')) ds = ds := by
    apply List.filter_eq_self.mpr
    intro a ha
    have hda : a.isDigit = true := List.all_eq_true.mp hdig a ha
    have hne : ¬(a = '%') := fun he => by subst he; exact absurd hda (by decide)
    simpa using hne
  rw [h1, show List.filter (fun c => !(c = '%')) ['%'] = [] from rfl,
    List.append_nil]

theorem winPctDigits_shape (h : Ln) (s : Screen) (ds : Ln)
    (hd : winPctDigits h s = some ds) :
    ds ≠ [] ∧ ds.all Char.isDigit = true := by
  rw [winPctDigits] at hd
  cases ho : winPctTok h s with
  | none => rw [ho] at hd; exact absurd hd (by simp)
  | some u =>
    rw [ho] at hd
    obtain ⟨ds', hne, hdig, hu⟩ := firstPctInLines_shape _ _ ho
    subst hu
    rw [Option.map_some'] at hd
    rw [stripPct_digits ds' hdig] at hd
    have hds : ds' = ds := by exact Option.some_injective _ hd
    subst hds
    exact ⟨hne, hdig⟩

theorem dflt0_canon (h : Ln) (s : Screen)
    (hc : optCanon (winPctDigits h s) = true) :
    dflt0 (winPctDigits h s) = ['0'] ∨
      dflt0 (winPctDigits h s) ≠ [] ∧
      (dflt0 (winPctDigits h s)).all Char.isDigit = true ∧
      (dflt0 (winPctDigits h s)).head? ≠ some '0' := by
  cases ho : winPctDigits h s with
  | none => left; rfl
  | some ds =>
    obtain ⟨hne, hdig⟩ := winPctDigits_shape h s ds ho
    rw [ho, optCanon, Bool.or_eq_true] at hc
    rcases hc with h0 | hh
    · left
      show ds = ['0']
      exact of_decide_eq_true h0
    · right
      refine ⟨by simpa [dflt0] using hne, by simpa [dflt0] using hdig, ?_⟩
      show ds.head? ≠ some '0'
      simpa using hh

theorem dfltUnknown_safe (h : Ln) (s : Screen)
    (hs : optSafe (winReset h s) = true) :
    jsonSafeStr (dfltUnknown (winReset h s)) = true := by
  cases ho : winReset h s with
  | none => decide
  | some r =>
    rw [ho] at hs
    show jsonSafeStr (dfltUnknown (some r)) = true
    rw [dfltUnknown]
    by_cases hre : r.isEmpty
    · rw [if_pos hre]; decide
    · rw [if_neg hre]; exact hs

set_option maxRecDepth 10000 in
/-- Claim C3 counterexample: on a captured text whose session reset line
holds a double quote, the JSON script interpolates it unescaped and the
printed object is not well-formed JSON. -/
theorem c3_counterexample :
    winReset sessionHeading
        ["Current session".data, "  45% used".data,
          "  Resets a \"b\"".data] = some "a \"b\"".data ∧
      jsonWf (jsonOutput "2025-01-01T00:00:00-07:00".data
        ["Current session".data, "  45% used".data,
          "  Resets a \"b\"".data]) = false := by
  refine ⟨?_, ?_⟩ <;> decide

/-- Claim C3 as amended: in every environment the JSON script exits 0 and
prints exactly one text, the fixed heredoc template with the external
timestamp interpolated verbatim and, per window, the matched digit string
(default 0) as percent_used and the extracted reset string (default
unknown) as resets; the printed text is one well-formed JSON object
provided the timestamp and each extracted reset string contain no double
quote, backslash or control character and each matched digit string has
no leading zero — the script performs no escaping or normalization, so
those inputs (see the counterexample) yield malformed JSON. -/
theorem c3_amended (e : Env)
    (hts : jsonSafeStr e.dateOut = true)
    (hp1 : optCanon (winPctDigits sessionHeading (envScreen e)) = true)
    (hp2 : optCanon (winPctDigits weekAllHeading (envScreen e)) = true)
    (hp3 : optCanon (winPctDigits weekSonnetHeading (envScreen e)) = true)
    (hr1 : optSafe (winReset sessionHeading (envScreen e)) = true)
    (hr2 : optSafe (winReset weekAllHeading (envScreen e)) = true)
    (hr3 : optSafe (winReset weekSonnetHeading (envScreen e)) = true) :
    (jsonRun e).2 = 0 ∧
      (jsonRun e).1.filterMap printedOf =
        [jsonOutput e.dateOut (envScreen e)] ∧
      jsonOutput e.dateOut (envScreen e) =
        mkJsonTemplate e.dateOut
          (dflt0 (winPctDigits sessionHeading (envScreen e)))
          (dfltUnknown (winReset sessionHeading (envScreen e)))
          (dflt0 (winPctDigits weekAllHeading (envScreen e)))
          (dfltUnknown (winReset weekAllHeading (envScreen e)))
          (dflt0 (winPctDigits weekSonnetHeading (envScreen e)))
          (dfltUnknown (winReset weekSonnetHeading (envScreen e))) ∧
      jsonWf (jsonOutput e.dateOut (envScreen e)) = true := by
  refine ⟨rfl, ?_, rfl, ?_⟩
  · show (choreography ++
        [Eff.printOut (jsonOutput e.dateOut (envScreen e))]).filterMap
        printedOf = _
    rw [List.filterMap_append]
    rfl
  · exact jsonWf_template _ _ _ _ _ _ _ hts
      (dflt0_canon _ _ hp1) (dflt0_canon _ _ hp2) (dflt0_canon _ _ hp3)
      (dfltUnknown_safe _ _ hr1) (dfltUnknown_safe _ _ hr2)
      (dfltUnknown_safe _ _ hr3)

/-- Witness for C2 as amended, at a concrete screen. -/
theorem c2_amended_witness :
    '-' ∉ compactLine ["Current session".data, "  45% used".data] ∧
      (winPctTok sessionHeading
          ["Current session".data, "  45% used".data] = none ∨
        ∃ ds, ds ≠ [] ∧ ds.all Char.isDigit = true ∧
          winPctTok sessionHeading
            ["Current session".data, "  45% used".data] = some (ds ++ ['%'])) ∧
      (winPctTok weekAllHeading
          ["Current session".data, "  45% used".data] = none ∨
        ∃ ds, ds ≠ [] ∧ ds.all Char.isDigit = true ∧
          winPctTok weekAllHeading
            ["Current session".data, "  45% used".data] = some (ds ++ ['%'])) :=
  c2_amended ["Current session".data, "  45% used".data]

/-- Witness for C4 at a concrete environment. -/
theorem c4_compact_witness :
    (compactRun ⟨true, true,
        some ["Current session".data, "  45% used".data], []⟩).2 = 0 ∧
      (compactRun ⟨true, true,
          some ["Current session".data, "  45% used".data], []⟩).1.filterMap
          printedOf =
        [compactLine (envScreen ⟨true, true,
          some ["Current session".data, "  45% used".data], []⟩)] ∧
      compactLine (envScreen ⟨true, true,
          some ["Current session".data, "  45% used".data], []⟩) =
        "Claude: ".data ++ (dfltQ (winPctTok sessionHeading (envScreen ⟨true,
            true, some ["Current session".data, "  45% used".data], []⟩)) ++
          (" | Week: ".data ++ dfltQ (winPctTok weekAllHeading
            (envScreen ⟨true, true,
              some ["Current session".data, "  45% used".data], []⟩)))) ∧
      (dfltQ (winPctTok sessionHeading (envScreen ⟨true, true,
            some ["Current session".data, "  45% used".data], []⟩)) = ['?'] ∧
          winPctTok sessionHeading (envScreen ⟨true, true,
            some ["Current session".data, "  45% used".data], []⟩) = none ∨
        ∃ ds, ds ≠ [] ∧ ds.all Char.isDigit = true ∧
          dfltQ (winPctTok sessionHeading (envScreen ⟨true, true,
            some ["Current session".data, "  45% used".data], []⟩)) =
            ds ++ ['%'] ∧
          winPctTok sessionHeading (envScreen ⟨true, true,
            some ["Current session".data, "  45% used".data], []⟩) =
            some (ds ++ ['%'])) ∧
      (dfltQ (winPctTok weekAllHeading (envScreen ⟨true, true,
            some ["Current session".data, "  45% used".data], []⟩)) = ['?'] ∧
          winPctTok weekAllHeading (envScreen ⟨true, true,
            some ["Current session".data, "  45% used".data], []⟩) = none ∨
        ∃ ds, ds ≠ [] ∧ ds.all Char.isDigit = true ∧
          dfltQ (winPctTok weekAllHeading (envScreen ⟨true, true,
            some ["Current session".data, "  45% used".data], []⟩)) =
            ds ++ ['%'] ∧
          winPctTok weekAllHeading (envScreen ⟨true, true,
            some ["Current session".data, "  45% used".data], []⟩) =
            some (ds ++ ['%'])) ∧
      '\n' ∉ compactLine (envScreen ⟨true, true,
        some ["Current session".data, "  45% used".data], []⟩) :=
  c4_compact ⟨true, true, some ["Current session".data, "  45% used".data], []⟩

/-- Witness for C3 as amended, at a concrete environment. -/
theorem c3_amended_witness :
    (jsonRun ⟨true, true, some ["Current session".data, "  45% used".data,
        "  Resets 2h 30m".data], "2025-01-01T00:00:00-07:00".data⟩).2 = 0 ∧
      (jsonRun ⟨true, true, some ["Current session".data, "  45% used".data,
          "  Resets 2h 30m".data],
          "2025-01-01T00:00:00-07:00".data⟩).1.filterMap printedOf =
        [jsonOutput "2025-01-01T00:00:00-07:00".data
          (envScreen ⟨true, true, some ["Current session".data,
            "  45% used".data, "  Resets 2h 30m".data],
            "2025-01-01T00:00:00-07:00".data⟩)] ∧
      jsonOutput "2025-01-01T00:00:00-07:00".data
          (envScreen ⟨true, true, some ["Current session".data,
            "  45% used".data, "  Resets 2h 30m".data],
            "2025-01-01T00:00:00-07:00".data⟩) =
        mkJsonTemplate "2025-01-01T00:00:00-07:00".data
          (dflt0 (winPctDigits sessionHeading
            (envScreen ⟨true, true, some ["Current session".data,
              "  45% used".data, "  Resets 2h 30m".data],
              "2025-01-01T00:00:00-07:00".data⟩)))
          (dfltUnknown (winReset sessionHeading
            (envScreen ⟨true, true, some ["Current session".data,
              "  45% used".data, "  Resets 2h 30m".data],
              "2025-01-01T00:00:00-07:00".data⟩)))
          (dflt0 (winPctDigits weekAllHeading
            (envScreen ⟨true, true, some ["Current session".data,
              "  45% used".data, "  Resets 2h 30m".data],
              "2025-01-01T00:00:00-07:00".data⟩)))
          (dfltUnknown (winReset weekAllHeading
            (envScreen ⟨true, true, some ["Current session".data,
              "  45% used".data, "  Resets 2h 30m".data],
              "2025-01-01T00:00:00-07:00".data⟩)))
          (dflt0 (winPctDigits weekSonnetHeading
            (envScreen ⟨true, true, some ["Current session".data,
              "  45% used".data, "  Resets 2h 30m".data],
              "2025-01-01T00:00:00-07:00".data⟩)))
          (dfltUnknown (winReset weekSonnetHeading
            (envScreen ⟨true, true, some ["Current session".data,
              "  45% used".data, "  Resets 2h 30m".data],
              "2025-01-01T00:00:00-07:00".data⟩))) ∧
      jsonWf (jsonOutput "2025-01-01T00:00:00-07:00".data
        (envScreen ⟨true, true, some ["Current session".data,
          "  45% used".data, "  Resets 2h 30m".data],
          "2025-01-01T00:00:00-07:00".data⟩)) = true :=
  c3_amended ⟨true, true, some ["Current session".data, "  45% used".data,
      "  Resets 2h 30m".data], "2025-01-01T00:00:00-07:00".data⟩
    (by decide) (by decide) (by decide) (by decide) (by decide) (by decide)
    (by decide)

end Usage
